import Mathlib

/-!
# Verification of the gauss-legendre-visualizer quadrature core

A shallow embedding, over `ℝ`, of the quadrature engine of the
`gauss-legendre-visualizer` repository: the four node/weight generators
(Gauss-Legendre, equally spaced, Chebyshev/Fejér, seeded random), the
interval mapping, the two quadrature evaluators (the standalone
Gauss-Legendre one in `gaussLegendre.js` and the unified registry one in
the quadrature registry module), the adaptive-Simpson reference value
engine and the domain validator.

JavaScript numbers are modelled as real numbers; code that can observe
`NaN` / `Infinity` / thrown exceptions (the domain validator) is embedded
over an explicit value domain `JSNum` with an `Option` for exceptions.
JavaScript's `throw` in the generators/evaluators is modelled with
`Except String`.
-/

namespace GLViz

open Real List

/-! ## Data model -/

/-- One evaluated node of a quadrature computation: the `details` rows built
by both `computeQuadrature` implementations. -/
structure QuadratureDetailRow where
  index : ℕ
  originalNode : ℝ
  transformedNode : ℝ
  originalWeight : ℝ
  transformedWeight : ℝ
  fValue : ℝ
  contribution : ℝ

/-- The `{ integral, details }` object returned by both `computeQuadrature`
implementations. -/
structure QuadratureResult where
  integral : ℝ
  details : List QuadratureDetailRow

/-! ## Gauss-Legendre (`src/utils/gaussLegendre.js`) -/

/-- The `PRECOMPUTED` table of `gaussLegendre.js`: nodes and weights of
Gauss-Legendre quadrature for degrees 1..10, as the exact rational decimal
literals of the source. Keys outside 1..10 are never read (the generator
throws first); they are mapped to `([], [])`. -/
noncomputable def PRECOMPUTED : ℕ → List ℝ × List ℝ
  | 1 => ([0], [2])
  | 2 => ([-0.5773502691896257, 0.5773502691896257], [1, 1])
  | 3 => ([-0.7745966692414834, 0, 0.7745966692414834],
          [0.5555555555555556, 0.8888888888888888, 0.5555555555555556])
  | 4 => ([-0.8611363115940526, -0.3399810435848563,
           0.3399810435848563, 0.8611363115940526],
          [0.3478548451374538, 0.6521451548625461,
           0.6521451548625461, 0.3478548451374538])
  | 5 => ([-0.9061798459386640, -0.5384693101056831, 0,
           0.5384693101056831, 0.9061798459386640],
          [0.2369268850561891, 0.4786286704993665, 0.5688888888888889,
           0.4786286704993665, 0.2369268850561891])
  | 6 => ([-0.9324695142031521, -0.6612093864662645, -0.2386191860831969,
           0.2386191860831969, 0.6612093864662645, 0.9324695142031521],
          [0.1713244923791704, 0.3607615730481386, 0.4679139345726910,
           0.4679139345726910, 0.3607615730481386, 0.1713244923791704])
  | 7 => ([-0.9491079123427585, -0.7415311855993945, -0.4058451513773972, 0,
           0.4058451513773972, 0.7415311855993945, 0.9491079123427585],
          [0.1294849661688697, 0.2797053914892766, 0.3818300505051189,
           0.4179591836734694, 0.3818300505051189, 0.2797053914892766,
           0.1294849661688697])
  | 8 => ([-0.9602898564975363, -0.7966664774136267, -0.5255324099163290,
           -0.1834346424956498, 0.1834346424956498, 0.5255324099163290,
           0.7966664774136267, 0.9602898564975363],
          [0.1012285362903763, 0.2223810344533745, 0.3137066458778873,
           0.3626837833783620, 0.3626837833783620, 0.3137066458778873,
           0.2223810344533745, 0.1012285362903763])
  | 9 => ([-0.9681602395076261, -0.8360311073266358, -0.6133714327005904,
           -0.3242534234038089, 0, 0.3242534234038089, 0.6133714327005904,
           0.8360311073266358, 0.9681602395076261],
          [0.0812743883615744, 0.1806481606948574, 0.2606106964029354,
           0.3123470770400029, 0.3302393550012598, 0.3123470770400029,
           0.2606106964029354, 0.1806481606948574, 0.0812743883615744])
  | 10 => ([-0.9739065285171717, -0.8650633666889845, -0.6794095682990244,
            -0.4333953941292472, -0.1488743389816312, 0.1488743389816312,
            0.4333953941292472, 0.6794095682990244, 0.8650633666889845,
            0.9739065285171717],
           [0.0666713443086881, 0.1494513491505806, 0.2190863625159820,
            0.2692667193099963, 0.2955242247147529, 0.2955242247147529,
            0.2692667193099963, 0.2190863625159820, 0.1494513491505806,
            0.0666713443086881])
  | _ => ([], [])

/-- `getNodesAndWeights` of `gaussLegendre.js`: range-checks the degree and
returns the precomputed table entry. The `throw` is an `Except.error`. -/
noncomputable def gaussGetNodesAndWeights (n : ℕ) : Except String (List ℝ × List ℝ) :=
  if n < 1 ∨ 10 < n then
    Except.error s!"Degree must be between 1 and 10, got {n}"
  else
    Except.ok (PRECOMPUTED n)

/-- `transformNode` (identical in `gaussLegendre.js` and the registry):
affine map of a canonical node from [-1,1] onto [a,b]. -/
noncomputable def transformNode (xi a b : ℝ) : ℝ :=
  ((b - a) / 2) * xi + (a + b) / 2

/-- `transformWeight` (identical in `gaussLegendre.js` and the registry):
scaling of a canonical weight by the interval half-length. -/
noncomputable def transformWeight (wi a b : ℝ) : ℝ :=
  ((b - a) / 2) * wi

/-- The body of iteration `i` of the `for` loop of `computeQuadrature` in
`gaussLegendre.js`: builds the detail row for node index `i` (0-based;
`index` is stored 1-based as in the source). `nodes[i]` is in bounds for
every run the source performs; out-of-range access is given the junk
default 0. -/
noncomputable def gaussDetailRow (nodes weights : List ℝ) (f : ℝ → ℝ) (a b : ℝ)
    (i : ℕ) : QuadratureDetailRow :=
  let xi := nodes.getD i 0
  let wi := weights.getD i 0
  let x := transformNode xi a b
  let w := transformWeight wi a b
  let fVal := f x
  { index := i + 1, originalNode := xi, transformedNode := x,
    originalWeight := wi, transformedWeight := w, fValue := fVal,
    contribution := w * fVal }

/-- `computeQuadrature` of `gaussLegendre.js`: fetch the node/weight set,
map each node/weight to [a,b], evaluate `f`, and accumulate the weighted
contributions in node order. -/
noncomputable def gaussComputeQuadrature (f : ℝ → ℝ) (a b : ℝ) (n : ℕ) :
    Except String QuadratureResult := do
  let nw ← gaussGetNodesAndWeights n
  let details := (List.range n).map (gaussDetailRow nw.1 nw.2 f a b)
  pure { integral := details.foldl (fun acc r => acc + r.contribution) 0,
         details := details }

/-! ## Equally spaced (`src/utils/quadrature/equallySpaced.js`) -/

/-- `getNodesAndWeights` of `equallySpaced.js`: range check, `n = 1`
midpoint special case, otherwise uniform nodes with spacing `h = 2/(n-1)`
and composite-trapezoid weights (`h/2` at the two endpoints, `h` inside). -/
noncomputable def equallySpacedGetNodesAndWeights (n : ℕ) : Except String (List ℝ × List ℝ) :=
  if n < 1 ∨ 10 < n then
    Except.error s!"Degree must be between 1 and 10, got {n}"
  else if n = 1 then
    Except.ok ([0], [2])
  else
    let h : ℝ := 2 / ((n : ℝ) - 1)
    Except.ok ((List.range n).map (fun (i : ℕ) => -1 + (i : ℝ) * h),
               (List.range n).map (fun (i : ℕ) => if i = 0 ∨ i = n - 1 then h / 2 else h))

/-! ## Chebyshev / Fejér first rule (`src/utils/quadrature/chebyshev.js`) -/

/-- The unsorted Chebyshev node list of `chebyshev.js`:
`cos((2k - 1)π/(2n))` pushed for `k = 1, .., n`. Index `i` of the list is
the source's `k - 1`, so the angle is `(2i + 1)π/(2n)`. -/
noncomputable def chebyshevNodesRaw (n : ℕ) : List ℝ :=
  (List.range n).map (fun (i : ℕ) => Real.cos ((2 * (i : ℝ) + 1) * π / (2 * n)))

/-- The summation bound `maxJ = floor((n - 1)/2)` of `computeFejerWeights`. -/
def maxJ (n : ℕ) : ℕ := (n - 1) / 2

/-- The local `theta` of `computeFejerWeights`: the pre-sort angle
`θ_k = (2k - 1)π/(2n)` of (1-based) index `k`. -/
noncomputable def fejerTheta (n k : ℕ) : ℝ :=
  (2 * (k : ℝ) - 1) * π / (2 * n)

/-- One iteration `k` (1-based, as in the source) of the outer loop of
`computeFejerWeights`: `w` starts at 1 and the inner loop subtracts
`(2/(4j² - 1))·cos(2jθ)` for `j = 1, .., maxJ` (list index `j0 = j - 1`),
with `θ = (2k - 1)π/(2n)`; the pushed weight is `(2/n)·w`. -/
noncomputable def fejerWeight (n k : ℕ) : ℝ :=
  (2 / (n : ℝ)) *
    ((List.range (maxJ n)).foldl
      (fun (w : ℝ) (j0 : ℕ) =>
        w - (2 / (4 * ((j0 : ℝ) + 1) ^ 2 - 1)) *
          Real.cos (2 * ((j0 : ℝ) + 1) * fejerTheta n k))
      1)

/-- `computeFejerWeights` of `chebyshev.js`: the weight list for `k = 1..n`
followed by the `weights.reverse()` that realigns the weights with the
sorted (ascending) node list. The source passes the node list as a first
argument but reads only `n` from it, so the embedding takes `n` alone. -/
noncomputable def computeFejerWeights (n : ℕ) : List ℝ :=
  ((List.range n).map (fun k0 => fejerWeight n (k0 + 1))).reverse

/-- `getNodesAndWeights` of `chebyshev.js`: range check, Chebyshev nodes
sorted ascending (`nodes.sort((a, b) => a - b)` is modelled as an
ascending merge sort), and the reversed Fejér weights. -/
noncomputable def chebyshevGetNodesAndWeights (n : ℕ) :
    Except String (List ℝ × List ℝ) :=
  if n < 1 ∨ 10 < n then
    Except.error s!"Degree must be between 1 and 10, got {n}"
  else
    Except.ok ((chebyshevNodesRaw n).mergeSort, computeFejerWeights n)

/-! ## Random nodes (`src/utils/quadrature/random.js`) -/

/-- One draw of the Mulberry32 PRNG of `random.js`, on a 32-bit state kept
as a natural number below `2^32` (JavaScript's `ToUint32`/`ToInt32`
coercions in the bitwise operations reduce every intermediate modulo
`2^32`, and reducing the stored seed as well is exact because addition
commutes with the modulus). Returns the raw 32-bit output together with
the updated seed state. -/
def mulberry32Next (s : ℕ) : ℕ × ℕ :=
  let s2 := (s + 0x6D2B79F5) % 2 ^ 32
  let t1 := Nat.xor s2 (s2 >>> 15)
  let t2 := (t1 * (Nat.lor s2 1)) % 2 ^ 32
  let t3 := Nat.xor t2 (t2 >>> 7)
  let t4 := (t3 * (Nat.lor t2 61)) % 2 ^ 32
  let t5 := Nat.xor t2 ((t2 + t4) % 2 ^ 32)
  let t6 := Nat.xor t5 (t5 >>> 14)
  (t6, s2)

/-- The node-generation loop of `random.js`: draw `n` uniform values
`u ∈ [0, 1)` (the 32-bit output divided by `4294967296`) and push
`-1 + 2u`, threading the PRNG state. -/
noncomputable def randomNodesRaw : ℕ → ℕ → List ℝ
  | 0, _ => []
  | m + 1, s =>
      let d := mulberry32Next s
      (-1 + 2 * ((d.1 : ℝ) / 4294967296)) :: randomNodesRaw m d.2

/-- `getNodesAndWeights` of `random.js`: range check, `n` seeded draws
sorted ascending, and the equal weights `Array(n).fill(2/n)`. The integer
seed enters the 32-bit state modulo `2^32`, as JavaScript's bitwise
coercions do. -/
noncomputable def randomGetNodesAndWeights (n : ℕ) (seed : ℤ) :
    Except String (List ℝ × List ℝ) :=
  if n < 1 ∨ 10 < n then
    Except.error s!"Degree must be between 1 and 10, got {n}"
  else
    Except.ok ((randomNodesRaw n (seed % 2 ^ 32).toNat).mergeSort,
               List.replicate n (2 / (n : ℝ)))

/-! ## Unified registry (`src/utils/quadrature/index.js`) -/

/-- The `QUADRATURE_METHODS` registry, restricted to its computational
field: the string-keyed lookup of each method's `getNodesAndWeights`
closure. The deterministic methods' closures take only `n` (the extra
seed argument is ignored, as a spare JavaScript argument is); `random`
forwards the seed. Presentation-only fields (name, color, description)
are out of the embedded core. -/
noncomputable def QUADRATURE_METHODS (methodId : String) :
    Option (ℕ → ℤ → Except String (List ℝ × List ℝ)) :=
  if methodId = "gaussLegendre" then some (fun n _ => gaussGetNodesAndWeights n)
  else if methodId = "equallySpaced" then some (fun n _ => equallySpacedGetNodesAndWeights n)
  else if methodId = "chebyshev" then some (fun n _ => chebyshevGetNodesAndWeights n)
  else if methodId = "random" then some (fun n seed => randomGetNodesAndWeights n seed)
  else none

/-- The `METHOD_IDS` constant of the registry. -/
def METHOD_IDS : List String :=
  ["gaussLegendre", "equallySpaced", "chebyshev", "random"]

/-- The body of iteration `i` of the `for` loop of the registry's
`computeQuadrature` (textually identical to the loop of
`gaussLegendre.js`, embedded separately so that their equivalence is a
theorem rather than a modelling assumption). -/
noncomputable def registryDetailRow (nodes weights : List ℝ) (f : ℝ → ℝ) (a b : ℝ)
    (i : ℕ) : QuadratureDetailRow :=
  let xi := nodes.getD i 0
  let wi := weights.getD i 0
  let x := transformNode xi a b
  let w := transformWeight wi a b
  let fVal := f x
  { index := i + 1, originalNode := xi, transformedNode := x,
    originalWeight := wi, transformedWeight := w, fValue := fVal,
    contribution := w * fVal }

/-- `computeQuadrature` of the registry: look the method up by id (unknown
ids throw), call its generator — passing `options.seed ?? 42` only for
`random` — and run the accumulation loop. The `options` object is
modelled by its only field, the optional seed. -/
noncomputable def computeQuadrature (methodId : String) (f : ℝ → ℝ) (a b : ℝ)
    (n : ℕ) (options : Option ℤ) : Except String QuadratureResult :=
  match QUADRATURE_METHODS methodId with
  | none => Except.error s!"Unknown quadrature method: {methodId}"
  | some gnw => do
      let nw ← if methodId = "random" then gnw n (options.getD 42) else gnw n 0
      let details := (List.range n).map (registryDetailRow nw.1 nw.2 f a b)
      pure { integral := details.foldl (fun acc r => acc + r.contribution) 0,
             details := details }

/-! ## Reference value engine (adaptive Simpson, registry module) -/

/-- The `left` Simpson half-estimate of `adaptiveSimpsonRecurse`
(`m = (a+b)/2`, `lm = (a+m)/2`). -/
noncomputable def simpsonLeft (f : ℝ → ℝ) (a b fa fm : ℝ) : ℝ :=
  let m := (a + b) / 2
  ((m - a) / 6) * (fa + 4 * f ((a + m) / 2) + fm)

/-- The `right` Simpson half-estimate of `adaptiveSimpsonRecurse`
(`m = (a+b)/2`, `rm = (m+b)/2`). -/
noncomputable def simpsonRight (f : ℝ → ℝ) (a b fb fm : ℝ) : ℝ :=
  let m := (a + b) / 2
  ((b - m) / 6) * (fm + 4 * f ((m + b) / 2) + fb)

/-- The `combined` two-half Simpson estimate of `adaptiveSimpsonRecurse`. -/
noncomputable def simpsonCombined (f : ℝ → ℝ) (a b fa fb fm : ℝ) : ℝ :=
  simpsonLeft f a b fa fm + simpsonRight f a b fb fm

/-- `adaptiveSimpsonRecurse` of the registry module: compare the two-half
estimate `combined` against the whole-interval estimate; accept the
Richardson-corrected `combined + delta/15` once `|delta| ≤ 15·tol` or the
depth cap is hit, otherwise recurse on the two halves with the tolerance
halved and the depth incremented. Lean's termination checker discharges
termination by the strictly decreasing measure `maxDepth - depth`, which
is exactly the claim that the depth counter strictly increases toward the
cap. -/
noncomputable def adaptiveSimpsonRecurse (f : ℝ → ℝ) (a b fa fb fm whole tol : ℝ)
    (maxDepth depth : ℕ) : ℝ :=
  let m := (a + b) / 2
  let flm := f ((a + m) / 2)
  let frm := f ((m + b) / 2)
  let left := ((m - a) / 6) * (fa + 4 * flm + fm)
  let right := ((b - m) / 6) * (fm + 4 * frm + fb)
  let combined := left + right
  let delta := combined - whole
  if maxDepth ≤ depth ∨ |delta| ≤ 15 * tol then
    combined + delta / 15
  else
    adaptiveSimpsonRecurse f a m fa fm flm left (tol / 2) maxDepth (depth + 1) +
    adaptiveSimpsonRecurse f m b fm fb frm right (tol / 2) maxDepth (depth + 1)
termination_by maxDepth - depth
decreasing_by all_goals omega

/-- `adaptiveSimpson` of the registry module: the whole-interval Simpson
estimate seeds the recursion at depth 0. -/
noncomputable def adaptiveSimpson (f : ℝ → ℝ) (a b tol : ℝ) (maxDepth : ℕ) : ℝ :=
  let fa := f a
  let fb := f b
  let m := (a + b) / 2
  let fm := f m
  let whole := ((b - a) / 6) * (fa + 4 * fm + fb)
  adaptiveSimpsonRecurse f a b fa fb fm whole tol maxDepth 0

/-- `computeReferenceValue` of the registry module: adaptive Simpson with
initial tolerance `1e-14` and depth cap 30. -/
noncomputable def computeReferenceValue (f : ℝ → ℝ) (a b : ℝ) : ℝ :=
  adaptiveSimpson f a b 1e-14 30

/-! ## Domain validator (`validateFunctionOnInterval`, registry module)

The validator inspects `NaN` and `Infinity` results and catches thrown
exceptions, so its target function is embedded as
`ℝ → Option JSNum`: `none` models a throw, `some` a returned JavaScript
number. -/

/-- A JavaScript number as the domain validator observes it: `NaN`, one of
the two infinities, or a finite real. -/
inductive JSNum where
  | nan
  | posInf
  | negInf
  | fin (x : ℝ)

/-- `isNaN(y)` on a `JSNum`. -/
def JSNum.isNaNb : JSNum → Bool
  | .nan => true
  | _ => false

/-- `!isNaN(y) && !isFinite(y)` on a `JSNum` (the `infCount` branch). -/
def JSNum.isInfb : JSNum → Bool
  | .posInf => true
  | .negInf => true
  | _ => false

/-- `isFinite(y)` on a `JSNum`. -/
def JSNum.isFiniteb : JSNum → Bool
  | .fin _ => true
  | _ => false

/-- The distinct diagnostic messages of `validateFunctionOnInterval`,
abstracted from their interpolated strings:
`undefinedLargePortion` is "Function is undefined on a large portion of
[a, b]...", `asymptoteOrSingularity` is "Function has asymptotes or
singularities on [a, b]...", `poleDetected` is "Function appears to have
an asymptote on [a, b]...", `hiddenSingularity` is "Function has a
singularity or asymptote on [a, b]...", `boundaryNonFinite` is "Function
is undefined or infinite at the boundary of [a, b]...", and
`boundaryThrow` is "Function cannot be evaluated at the boundary of
[a, b].". -/
inductive ValidationMessage where
  | undefinedLargePortion
  | asymptoteOrSingularity
  | poleDetected
  | hiddenSingularity
  | boundaryNonFinite
  | boundaryThrow
  deriving DecidableEq

/-- The `{ valid, message? }` result of `validateFunctionOnInterval`. -/
structure ValidationResult where
  valid : Bool
  message : Option ValidationMessage
  deriving DecidableEq

/-- Sample point `i` of the validator's main loop:
`x = a + (b - a)·i/numSamples` with `numSamples = 200`. -/
noncomputable def samplePoint (a b : ℝ) (i : ℕ) : ℝ :=
  a + (b - a) * (i : ℝ) / 200

/-- The `values` array of the validator's main loop: 201 samples, a thrown
evaluation being recorded as `NaN` (the `catch` branch pushes `NaN` and
counts it). -/
noncomputable def sampleValues (f : ℝ → Option JSNum) (a b : ℝ) : List JSNum :=
  (List.range 201).map (fun i =>
    match f (samplePoint a b i) with
    | none => JSNum.nan
    | some y => y)

/-- The adjacent-pair singularity scan of the validator: walk consecutive
sample pairs, skip pairs with a non-finite member, report a pole on an
opposite-sign pair with both magnitudes above 50, and a hidden
singularity on a pair with both magnitudes above 1 and magnitude ratio
above `1e6`; the first hit wins. -/
noncomputable def adjacentScan : List JSNum → Option ValidationMessage
  | [] => none
  | [_] => none
  | x :: y :: rest =>
    match x, y with
    | .fin p, .fin c =>
        if p * c < 0 ∧ |p| > 50 ∧ |c| > 50 then some .poleDetected
        else if |p| > 1 ∧ |c| > 1 ∧
            (if |c| > |p| then |c| / |p| else |p| / |c|) > 1e6 then
          some .hiddenSingularity
        else adjacentScan (.fin c :: rest)
    | _, y2 => adjacentScan (y2 :: rest)

/-- The `boundaryPoints` list of the validator:
`[a, a + ε, b - ε, b]` with `ε = (b - a)·1e-10`. -/
noncomputable def boundaryPoints (a b : ℝ) : List ℝ :=
  let eps := (b - a) * 1e-10
  [a, a + eps, b - eps, b]

/-- The boundary loop of the validator: evaluate each boundary point,
report the non-finite message on a returned non-finite value and the
cannot-evaluate message on a throw; the first failure wins. -/
noncomputable def boundaryScan (f : ℝ → Option JSNum) : List ℝ → Option ValidationMessage
  | [] => none
  | x :: rest =>
    match f x with
    | none => some .boundaryThrow
    | some y => if y.isFiniteb then boundaryScan f rest else some .boundaryNonFinite

/-- `validateFunctionOnInterval` of the registry module: 201 samples; fail
on a NaN fraction above 10% (`nanRatio > 0.1` with 201 total samples),
then on any infinite sample, then on the adjacent-pair heuristics, then
on the four boundary points; otherwise valid. -/
noncomputable def validateFunctionOnInterval (f : ℝ → Option JSNum) (a b : ℝ) :
    ValidationResult :=
  let values := sampleValues f a b
  let nanCount := values.countP JSNum.isNaNb
  let infCount := values.countP JSNum.isInfb
  if (nanCount : ℝ) / 201 > 0.1 then
    { valid := false, message := some .undefinedLargePortion }
  else if 0 < infCount then
    { valid := false, message := some .asymptoteOrSingularity }
  else
    match adjacentScan values with
    | some msg => { valid := false, message := some msg }
    | none =>
      match boundaryScan f (boundaryPoints a b) with
      | some msg => { valid := false, message := some msg }
      | none => { valid := true, message := none }

/-! ## Helper lemmas -/

/-- Unfolding of the standalone evaluator when the generator succeeds. -/
theorem gaussComputeQuadrature_eq_ok {n : ℕ} {nw : List ℝ × List ℝ}
    (h : gaussGetNodesAndWeights n = Except.ok nw) (f : ℝ → ℝ) (a b : ℝ) :
    gaussComputeQuadrature f a b n =
      Except.ok
        { integral := ((List.range n).map (gaussDetailRow nw.1 nw.2 f a b)).foldl
            (fun acc r => acc + r.contribution) 0,
          details := (List.range n).map (gaussDetailRow nw.1 nw.2 f a b) } := by
  simp [gaussComputeQuadrature, h]

/-- `gaussGetNodesAndWeights` succeeds on in-range degrees. -/
theorem gaussGetNodesAndWeights_ok {n : ℕ} (h1 : 1 ≤ n) (h2 : n ≤ 10) :
    gaussGetNodesAndWeights n = Except.ok (PRECOMPUTED n) := by
  simp [gaussGetNodesAndWeights]
  omega

/-- `equallySpacedGetNodesAndWeights` succeeds on in-range degrees. -/
theorem equallySpacedGetNodesAndWeights_isOk {n : ℕ} (h1 : 1 ≤ n) (h2 : n ≤ 10) :
    ∃ nw, equallySpacedGetNodesAndWeights n = Except.ok nw := by
  unfold equallySpacedGetNodesAndWeights
  rw [if_neg (by omega)]
  by_cases h : n = 1 <;> simp [h]

/-- `chebyshevGetNodesAndWeights` succeeds on in-range degrees. -/
theorem chebyshevGetNodesAndWeights_ok {n : ℕ} (h1 : 1 ≤ n) (h2 : n ≤ 10) :
    chebyshevGetNodesAndWeights n =
      Except.ok ((chebyshevNodesRaw n).mergeSort, computeFejerWeights n) := by
  unfold chebyshevGetNodesAndWeights
  rw [if_neg (by omega)]

/-- `randomGetNodesAndWeights` succeeds on in-range degrees. -/
theorem randomGetNodesAndWeights_ok {n : ℕ} (h1 : 1 ≤ n) (h2 : n ≤ 10) (seed : ℤ) :
    randomGetNodesAndWeights n seed =
      Except.ok ((randomNodesRaw n (seed % 2 ^ 32).toNat).mergeSort,
        List.replicate n (2 / (n : ℝ))) := by
  unfold randomGetNodesAndWeights
  rw [if_neg (by omega)]

/-- The registry loop body coincides with the standalone loop body (the two
`for` loops are textually identical in the source). -/
theorem registryDetailRow_eq_gaussDetailRow : registryDetailRow = gaussDetailRow := rfl

/-- The registry entries, read off the string-keyed lookup. -/
theorem QUADRATURE_METHODS_gaussLegendre :
    QUADRATURE_METHODS "gaussLegendre" = some (fun n _ => gaussGetNodesAndWeights n) := by
  simp [QUADRATURE_METHODS]

theorem QUADRATURE_METHODS_equallySpaced :
    QUADRATURE_METHODS "equallySpaced" = some (fun n _ => equallySpacedGetNodesAndWeights n) := by
  simp [QUADRATURE_METHODS]

theorem QUADRATURE_METHODS_chebyshev :
    QUADRATURE_METHODS "chebyshev" = some (fun n _ => chebyshevGetNodesAndWeights n) := by
  simp [QUADRATURE_METHODS]

theorem QUADRATURE_METHODS_random :
    QUADRATURE_METHODS "random" = some (fun n seed => randomGetNodesAndWeights n seed) := by
  simp [QUADRATURE_METHODS]

/-- Unfolding of the registry evaluator when the lookup and the generator
both succeed. -/
theorem computeQuadrature_run {methodId : String}
    {gnw : ℕ → ℤ → Except String (List ℝ × List ℝ)} {n : ℕ} {options : Option ℤ}
    {nw : List ℝ × List ℝ}
    (hm : QUADRATURE_METHODS methodId = some gnw)
    (h : (if methodId = "random" then gnw n (options.getD 42) else gnw n 0) =
      Except.ok nw) (f : ℝ → ℝ) (a b : ℝ) :
    computeQuadrature methodId f a b n options =
      Except.ok
        { integral := ((List.range n).map (registryDetailRow nw.1 nw.2 f a b)).foldl
            (fun acc r => acc + r.contribution) 0,
          details := (List.range n).map (registryDetailRow nw.1 nw.2 f a b) } := by
  unfold computeQuadrature
  rw [hm]
  by_cases hr : methodId = "random"
  · rw [if_pos hr] at h
    subst hr
    simp only [h]
    rfl
  · rw [if_neg hr] at h
    simp only [hr, if_false, h, reduceIte]
    rfl

/-- A left fold of iterated subtraction is the start value minus the sum. -/
theorem foldl_sub_eq (t : ℕ → ℝ) : ∀ (l : List ℕ) (c : ℝ),
    l.foldl (fun w j => w - t j) c = c - (l.map t).sum
  | [], c => by simp
  | j :: l, c => by
    rw [List.foldl_cons, foldl_sub_eq t l (c - t j)]
    simp
    ring

/-- Sum of a function mapped over `List.range` as a `Finset.range` sum. -/
theorem sum_map_range (t : ℕ → ℝ) : ∀ n : ℕ,
    ((List.range n).map t).sum = ∑ j in Finset.range n, t j
  | 0 => by simp
  | n + 1 => by
    rw [List.range_succ, Finset.sum_range_succ, List.map_append, List.sum_append,
      sum_map_range t n]
    simp

/-- Telescoping identity: the sum of cosines of the odd multiples of `α`
times `2 sin α` is `sin (2Nα)`. -/
theorem sum_cos_odd_mul_two_sin (α : ℝ) :
    ∀ N : ℕ, (∑ k in Finset.range N, Real.cos ((2 * (k : ℝ) + 1) * α)) *
      (2 * Real.sin α) = Real.sin (2 * (N : ℝ) * α)
  | 0 => by simp
  | N + 1 => by
    have hrec := sum_cos_odd_mul_two_sin α N
    have hdiff := Real.sin_sub_sin (2 * ((N : ℝ) + 1) * α) (2 * (N : ℝ) * α)
    have e1 : (2 * ((N : ℝ) + 1) * α - 2 * (N : ℝ) * α) / 2 = α := by ring
    have e2 : (2 * ((N : ℝ) + 1) * α + 2 * (N : ℝ) * α) / 2 = (2 * (N : ℝ) + 1) * α := by
      ring
    rw [e1, e2] at hdiff
    rw [Finset.sum_range_succ, add_mul, hrec]
    push_cast
    linarith [hdiff]

/-- For `1 ≤ j < n` the Fejér inner sums vanish: the cosines of the odd
multiples of `jπ/n` over `k = 0, .., n-1` sum to zero. -/
theorem sum_cos_fejer_angle_zero {n j : ℕ} (hj1 : 1 ≤ j) (hjn : j < n) :
    ∑ k in Finset.range n, Real.cos ((2 * (k : ℝ) + 1) * ((j : ℝ) * π / n)) = 0 := by
  have hn : (0 : ℝ) < n := by
    have : 0 < n := lt_of_le_of_lt (Nat.zero_le j) hjn
    exact_mod_cast this
  have hj0 : (0 : ℝ) < j := by exact_mod_cast hj1
  have hjn' : (j : ℝ) < n := by exact_mod_cast hjn
  have hsin : Real.sin ((j : ℝ) * π / n) ≠ 0 := by
    apply ne_of_gt
    apply Real.sin_pos_of_pos_of_lt_pi
    · positivity
    · rw [div_lt_iff₀ hn]
      nlinarith [Real.pi_pos]
  have htel := sum_cos_odd_mul_two_sin ((j : ℝ) * π / n) n
  have harg : 2 * (n : ℝ) * ((j : ℝ) * π / n) = ((2 * j : ℕ) : ℝ) * π := by
    push_cast
    field_simp
    ring
  rw [harg, Real.sin_nat_mul_pi] at htel
  rcases mul_eq_zero.mp htel with h | h
  · exact h
  · exact absurd (by linarith [h] : Real.sin ((j : ℝ) * π / n) = 0) hsin

/-- `fejerWeight` written with a `Finset.range` sum and the cosine argument
normalised to the odd-multiple form `(2k-1)·(jπ/n)`. -/
theorem fejerWeight_eq (n : ℕ) (hn : 1 ≤ n) (k0 : ℕ) :
    fejerWeight n (k0 + 1) = (2 / (n : ℝ)) *
      (1 - ∑ j0 in Finset.range (maxJ n),
        (2 / (4 * ((j0 : ℝ) + 1) ^ 2 - 1)) *
          Real.cos ((2 * (k0 : ℝ) + 1) * (((j0 : ℝ) + 1) * π / n))) := by
  have hn0 : (n : ℝ) ≠ 0 := by
    have : 0 < n := hn
    positivity
  unfold fejerWeight
  rw [foldl_sub_eq (fun j0 => (2 / (4 * ((j0 : ℝ) + 1) ^ 2 - 1)) *
        Real.cos (2 * ((j0 : ℝ) + 1) * fejerTheta n (k0 + 1))),
    sum_map_range]
  congr 1
  congr 1
  apply Finset.sum_congr rfl
  intro j0 _
  congr 1
  unfold fejerTheta
  push_cast
  field_simp
  ring

/-- The Fejér weights of the Chebyshev generator sum to exactly 2. -/
theorem computeFejerWeights_sum (n : ℕ) (hn : 1 ≤ n) :
    (computeFejerWeights n).sum = 2 := by
  have hn0 : (n : ℝ) ≠ 0 := by
    have : 0 < n := hn
    positivity
  unfold computeFejerWeights
  rw [List.sum_reverse, sum_map_range]
  have step1 : ∀ k0 ∈ Finset.range n, fejerWeight n (k0 + 1) = (2 / (n : ℝ)) *
      (1 - ∑ j0 in Finset.range (maxJ n),
        (2 / (4 * ((j0 : ℝ) + 1) ^ 2 - 1)) *
          Real.cos ((2 * (k0 : ℝ) + 1) * (((j0 : ℝ) + 1) * π / n))) :=
    fun k0 _ => fejerWeight_eq n hn k0
  rw [Finset.sum_congr rfl step1, ← Finset.mul_sum, Finset.sum_sub_distrib,
    Finset.sum_const, Finset.card_range, nsmul_eq_mul, mul_one, Finset.sum_comm]
  have inner_zero : ∀ j0 ∈ Finset.range (maxJ n),
      ∑ k0 in Finset.range n,
        (2 / (4 * ((j0 : ℝ) + 1) ^ 2 - 1)) *
          Real.cos ((2 * (k0 : ℝ) + 1) * (((j0 : ℝ) + 1) * π / n)) = 0 := by
    intro j0 hj0
    rw [← Finset.mul_sum]
    have hj0n : j0 + 1 < n := by
      have := Finset.mem_range.mp hj0
      unfold maxJ at this
      omega
    have hz := sum_cos_fejer_angle_zero (Nat.le_add_left 1 j0) hj0n
    push_cast at hz
    rw [hz, mul_zero]
  rw [Finset.sum_congr rfl inner_zero, Finset.sum_const, Finset.card_range, smul_zero,
    sub_zero]
  field_simp

/-- The `n = 1` special case of the equally spaced generator: one node at
0 with weight 2 (midpoint fallback). -/
theorem equallySpacedGetNodesAndWeights_one :
    equallySpacedGetNodesAndWeights 1 = Except.ok ([0], [2]) := by
  norm_num [equallySpacedGetNodesAndWeights]

/-- The `n ≥ 2` branch of the equally spaced generator: uniform nodes and
composite-trapezoid weights. -/
theorem equallySpacedGetNodesAndWeights_ge_two {n : ℕ} (h1 : 2 ≤ n) (h2 : n ≤ 10) :
    equallySpacedGetNodesAndWeights n =
      Except.ok
        ((List.range n).map (fun (i : ℕ) => -1 + (i : ℝ) * (2 / ((n : ℝ) - 1))),
         (List.range n).map (fun (i : ℕ) =>
           if i = 0 ∨ i = n - 1 then (2 / ((n : ℝ) - 1)) / 2 else 2 / ((n : ℝ) - 1))) := by
  unfold equallySpacedGetNodesAndWeights
  rw [if_neg (by omega), if_neg (by omega)]

/-- For an exact equality, an absolute deviation bound holds for any
nonnegative tolerance. -/
theorem abs_sub_le_tol_of_eq {x t tol : ℝ} (h : x = t) (htol : 0 ≤ tol) :
    |x - t| ≤ tol := by
  rw [h, sub_self, abs_zero]
  exact htol

/-- The raw Chebyshev node list is strictly decreasing: the angles
`(2k-1)π/(2n)` increase within `(0, π)` and `cos` is strictly
antitone there. -/
theorem chebyshevNodesRaw_pairwise_gt (n : ℕ) (hn : 1 ≤ n) :
    (chebyshevNodesRaw n).Pairwise (fun x y => y < x) := by
  unfold chebyshevNodesRaw
  rw [List.pairwise_map]
  have hnR : (0 : ℝ) < n := by exact_mod_cast hn
  have hpi := Real.pi_pos
  have mem : ∀ k : ℕ, k < n → (2 * (k : ℝ) + 1) * π / (2 * n) ∈ Set.Icc 0 π := by
    intro k hk
    have hkR : (k : ℝ) + 1 ≤ n := by exact_mod_cast hk
    constructor
    · positivity
    · rw [div_le_iff₀ (by positivity)]
      nlinarith
  refine (List.pairwise_lt_range n).imp_of_mem ?_
  intro i j hi hj hij
  have hin : i < n := List.mem_range.mp hi
  have hjn : j < n := List.mem_range.mp hj
  have hijR : (i : ℝ) < j := by exact_mod_cast hij
  apply Real.strictAntiOn_cos (mem i hin) (mem j hjn)
  have hlt : (2 * (i : ℝ) + 1) * π < (2 * (j : ℝ) + 1) * π := by nlinarith
  exact div_lt_div_of_pos_right hlt (by positivity)

/-- Sorting the strictly decreasing raw Chebyshev node list ascending is
exactly reversing it. -/
theorem chebyshev_mergeSort_eq_reverse (n : ℕ) (hn : 1 ≤ n) :
    (chebyshevNodesRaw n).mergeSort = (chebyshevNodesRaw n).reverse := by
  have hs1 : List.Sorted (· ≤ ·) ((chebyshevNodesRaw n).mergeSort) :=
    List.sorted_mergeSort' _
  have hs2 : List.Sorted (· ≤ ·) ((chebyshevNodesRaw n).reverse) := by
    rw [List.Sorted, List.pairwise_reverse]
    exact (chebyshevNodesRaw_pairwise_gt n hn).imp le_of_lt
  exact List.eq_of_perm_of_sorted
    ((List.mergeSort_perm _ _).trans (List.reverse_perm _).symm) hs1 hs2

/-- The `Prop` that a generator call returned a weight vector summing to 2
within `1e-9`. -/
def weightSumOk (res : Except String (List ℝ × List ℝ)) : Prop :=
  ∃ nw, res = Except.ok nw ∧ |nw.2.sum - 2| ≤ 1e-9

/-- A replicated NaN sample list counts entirely as NaN. -/
theorem countP_isNaNb_replicate_nan :
    ∀ n : ℕ, (List.replicate n JSNum.nan).countP JSNum.isNaNb = n
  | 0 => by simp
  | n + 1 => by
    rw [List.replicate_succ, List.countP_cons, countP_isNaNb_replicate_nan n]
    simp [JSNum.isNaNb]

/-- The adjacent-pair scan can only ever report a pole or a hidden
singularity. -/
theorem adjacentScan_msg : ∀ (l : List JSNum) (msg : ValidationMessage),
    adjacentScan l = some msg →
    msg = ValidationMessage.poleDetected ∨ msg = ValidationMessage.hiddenSingularity
  | [], msg => by simp [adjacentScan]
  | [x], msg => by simp [adjacentScan]
  | x :: y :: rest, msg => by
    intro h
    rcases x with _ | _ | _ | p <;> rcases y with _ | _ | _ | c <;>
      simp only [adjacentScan] at h <;>
      first
        | exact adjacentScan_msg _ msg h
        | (split_ifs at h <;>
           first
             | exact adjacentScan_msg _ msg h
             | exact Or.inl (Option.some_injective _ h).symm
             | exact Or.inr (Option.some_injective _ h).symm)

/-- The boundary scan can only ever report a boundary message. -/
theorem boundaryScan_msg (f : ℝ → Option JSNum) :
    ∀ (l : List ℝ) (msg : ValidationMessage), boundaryScan f l = some msg →
      msg = ValidationMessage.boundaryThrow ∨ msg = ValidationMessage.boundaryNonFinite
  | [], msg => by simp [boundaryScan]
  | x :: rest, msg => by
    intro h
    rcases hfx : f x with _ | y <;> simp only [boundaryScan, hfx] at h
    · exact Or.inl (Option.some_injective _ h).symm
    · by_cases hy : y.isFiniteb = true
      · rw [if_pos hy] at h
        exact boundaryScan_msg f rest msg h
      · rw [if_neg hy] at h
        exact Or.inr (Option.some_injective _ h).symm

/-- If the target function throws at a member of the scanned list, the
boundary scan reports some failure. -/
theorem boundaryScan_some_of_throw (f : ℝ → Option JSNum) {x : ℝ}
    (hfx : f x = none) :
    ∀ (l : List ℝ), x ∈ l → ∃ msg, boundaryScan f l = some msg := by
  intro l hxl
  induction l with
  | nil => cases hxl
  | cons p rest ih =>
    rcases List.mem_cons.mp hxl with rfl | hmem
    · exact ⟨ValidationMessage.boundaryThrow, by simp [boundaryScan, hfx]⟩
    · rcases hfp : f p with _ | y
      · exact ⟨ValidationMessage.boundaryThrow, by simp [boundaryScan, hfp]⟩
      · by_cases hy : y.isFiniteb = true
        · rcases ih hmem with ⟨msg, hmsg⟩
          exact ⟨msg, by simp only [boundaryScan, hfp, if_pos hy]; exact hmsg⟩
        · exact ⟨ValidationMessage.boundaryNonFinite,
            by simp only [boundaryScan, hfp, if_neg hy]⟩

/-- Replicates of a sample the predicate rejects count zero. -/
theorem countP_replicate_false {α : Type} (p : α → Bool) (a : α) (hpa : p a = false) :
    ∀ n : ℕ, (List.replicate n a).countP p = 0
  | 0 => by simp
  | n + 1 => by
    rw [List.replicate_succ, List.countP_cons, countP_replicate_false p a hpa n]
    simp [hpa]

/-- The adjacent-pair scan finds nothing in a constant zero sample list. -/
theorem adjacentScan_replicate_fin0 :
    ∀ k : ℕ, adjacentScan (List.replicate k (JSNum.fin 0)) = none
  | 0 => by simp [adjacentScan]
  | 1 => by simp [adjacentScan]
  | k + 2 => by
    rw [List.replicate_succ, List.replicate_succ]
    simp only [adjacentScan]
    rw [if_neg (by norm_num), if_neg (by norm_num), ← List.replicate_succ]
    exact adjacentScan_replicate_fin0 (k + 1)

/-- A target function used to witness the validator's exception handling:
it throws below 1 and returns the finite value 0 elsewhere. -/
noncomputable def throwBelowOne : ℝ → Option JSNum :=
  fun t => if t < 1 then none else some (JSNum.fin 0)

/-- On `[0, 200]` the sample points are the integers, so `throwBelowOne`
throws exactly at sample 0. -/
theorem sampleValues_throwBelowOne :
    sampleValues throwBelowOne 0 200 =
      JSNum.nan :: List.replicate 200 (JSNum.fin 0) := by
  have hsp : ∀ i : ℕ, samplePoint 0 200 i = (i : ℝ) := by
    intro i
    unfold samplePoint
    ring
  unfold sampleValues
  have hg : ∀ i ∈ List.range 201,
      (match throwBelowOne (samplePoint 0 200 i) with
        | none => JSNum.nan
        | some y => y) =
      (if i = 0 then JSNum.nan else JSNum.fin 0) := by
    intro i _
    rw [hsp i]
    by_cases h : i = 0
    · subst h
      unfold throwBelowOne
      norm_num
    · have h1R : ¬ ((i : ℝ) < 1) := by
        have : (1 : ℝ) ≤ (i : ℝ) := by
          exact_mod_cast Nat.one_le_iff_ne_zero.mpr h
        linarith
      unfold throwBelowOne
      rw [if_neg h1R]
      simp [h]
  rw [List.map_congr_left hg, List.range_succ_eq_map, List.map_cons, List.map_map]
  have hcomp : ((fun i => if i = 0 then JSNum.nan else JSNum.fin 0) ∘ Nat.succ) =
      fun _ => JSNum.fin 0 := by
    funext j
    simp
  rw [hcomp, List.map_const']
  simp

/-! ## Claims -/

/-- C2: the standalone Gauss-Legendre evaluator with `n = 3` points applied
to `f(x) = x^4` on `[-1, 1]` succeeds and returns an integral within
`1e-10` of `2/5 = 0.4` (an instance of degree-`2n-1` exactness). -/
theorem gauss_n3_x4_integral :
    ∃ r, gaussComputeQuadrature (fun x => x ^ 4) (-1) 1 3 = Except.ok r ∧
      |r.integral - 2 / 5| ≤ 1e-10 := by
  refine ⟨_, gaussComputeQuadrature_eq_ok (gaussGetNodesAndWeights_ok (by norm_num) (by norm_num))
      (fun x => x ^ 4) (-1) 1, ?_⟩
  rw [abs_le]
  norm_num [PRECOMPUTED, List.range_succ, gaussDetailRow, transformNode, transformWeight]

/-- C1: for every quadrature method and every degree `n` in [1,10] (and,
for `random`, every seed), the generator succeeds and its weights sum to 2
within `1e-9`. -/
theorem all_weights_sum_to_two (n : ℕ) (seed : ℤ) (h1 : 1 ≤ n) (h2 : n ≤ 10) :
    weightSumOk (gaussGetNodesAndWeights n) ∧
    weightSumOk (equallySpacedGetNodesAndWeights n) ∧
    weightSumOk (chebyshevGetNodesAndWeights n) ∧
    weightSumOk (randomGetNodesAndWeights n seed) := by
  refine ⟨?_, ?_, ?_, ?_⟩ <;> unfold weightSumOk
  · rw [gaussGetNodesAndWeights_ok h1 h2]
    refine ⟨_, rfl, ?_⟩
    rw [abs_le]
    interval_cases n <;> constructor <;> norm_num [PRECOMPUTED]
  · interval_cases n <;> exact ⟨_, rfl, by rw [abs_le]; constructor <;>
      norm_num [equallySpacedGetNodesAndWeights, List.range_succ]⟩
  · rw [chebyshevGetNodesAndWeights_ok h1 h2]
    refine ⟨_, rfl, ?_⟩
    have := computeFejerWeights_sum n h1
    simp only [this]
    norm_num
  · rw [randomGetNodesAndWeights_ok h1 h2 seed]
    refine ⟨_, rfl, ?_⟩
    have hn0 : (n : ℝ) ≠ 0 := by
      have : 0 < n := h1
      positivity
    have hsum : (List.replicate n (2 / (n : ℝ))).sum = 2 := by
      rw [List.sum_replicate, nsmul_eq_mul]
      field_simp
    simp only [hsum]
    norm_num

/-- Witness for C1 at `n = 3`, `seed = 7`. -/
theorem all_weights_sum_to_two_witness :
    (1 ≤ 3 ∧ 3 ≤ 10) ∧
    (weightSumOk (gaussGetNodesAndWeights 3) ∧
     weightSumOk (equallySpacedGetNodesAndWeights 3) ∧
     weightSumOk (chebyshevGetNodesAndWeights 3) ∧
     weightSumOk (randomGetNodesAndWeights 3 7)) :=
  ⟨⟨by norm_num, by norm_num⟩, all_weights_sum_to_two 3 7 (by norm_num) (by norm_num)⟩

/-- C7: the `equallySpaced` method integrates `f(x) = x` to within `1e-9`
of the true value `(b² - a²)/2` on every interval and every in-range
degree, the `n = 1` case going through the single-node midpoint fallback
(node 0, weight 2). -/
theorem equallySpaced_exact_linear (a b : ℝ) (hab : a < b) (n : ℕ)
    (h1 : 1 ≤ n) (h2 : n ≤ 10) :
    equallySpacedGetNodesAndWeights 1 = Except.ok ([0], [2]) ∧
    ∃ r, computeQuadrature "equallySpaced" (fun x => x) a b n none = Except.ok r ∧
      |r.integral - (b ^ 2 - a ^ 2) / 2| ≤ 1e-9 := by
  refine ⟨equallySpacedGetNodesAndWeights_one, ?_⟩
  interval_cases n <;>
    refine ⟨_, computeQuadrature_run QUADRATURE_METHODS_equallySpaced
      (by first
        | simpa using equallySpacedGetNodesAndWeights_one
        | simpa using equallySpacedGetNodesAndWeights_ge_two (by norm_num) (by norm_num))
      (fun x => x) a b, abs_sub_le_tol_of_eq ?_ (by norm_num)⟩ <;>
    (norm_num [List.range_succ, registryDetailRow, transformNode, transformWeight]
     ring)

/-- Witness for C7 at the spec's example `a = 0`, `b = 2`, `n = 4`
(integral `2.0`). -/
theorem equallySpaced_exact_linear_witness :
    ((0 : ℝ) < 2 ∧ 1 ≤ 4 ∧ 4 ≤ 10) ∧
    (equallySpacedGetNodesAndWeights 1 = Except.ok ([0], [2]) ∧
     ∃ r, computeQuadrature "equallySpaced" (fun x => x) 0 2 4 none = Except.ok r ∧
       |r.integral - ((2 : ℝ) ^ 2 - 0 ^ 2) / 2| ≤ 1e-9) :=
  ⟨⟨by norm_num, by norm_num, by norm_num⟩,
   equallySpaced_exact_linear 0 2 (by norm_num) 4 (by norm_num) (by norm_num)⟩

/-- C4: for every in-range degree, the Chebyshev generator succeeds; its
node list is the ascending sort of the raw roots `cos((2k-1)π/(2n))`
(`k = 1..n`) — concretely the reverse of the raw list, since the raw list
is strictly decreasing — and its weight list is the `k = 1..n` list of
Fejér first-rule weights computed with the pre-sort angle
`θ_k = (2k-1)π/(2n)`, reversed after the sort. Position `i` of both
returned lists therefore corresponds to the pre-sort index `k = n - i`,
so each sorted node keeps its own Fejér weight. -/
theorem chebyshev_nodes_sorted_weights_reversed (n : ℕ) (h1 : 1 ≤ n) (h2 : n ≤ 10) :
    ∃ nodes weights,
      chebyshevGetNodesAndWeights n = Except.ok (nodes, weights) ∧
      List.Sorted (· ≤ ·) nodes ∧
      nodes.Perm (chebyshevNodesRaw n) ∧
      nodes = ((List.range n).map
        (fun (k0 : ℕ) => Real.cos ((2 * (k0 : ℝ) + 1) * π / (2 * n)))).reverse ∧
      weights = ((List.range n).map (fun k0 => fejerWeight n (k0 + 1))).reverse := by
  refine ⟨_, _, chebyshevGetNodesAndWeights_ok h1 h2, ?_, ?_, ?_, rfl⟩
  · exact List.sorted_mergeSort' _
  · exact List.mergeSort_perm _ _
  · exact chebyshev_mergeSort_eq_reverse n h1

/-- Witness for C4 at `n = 2`. -/
theorem chebyshev_nodes_sorted_weights_reversed_witness :
    (1 ≤ 2 ∧ 2 ≤ 10) ∧
    ∃ nodes weights,
      chebyshevGetNodesAndWeights 2 = Except.ok (nodes, weights) ∧
      List.Sorted (· ≤ ·) nodes ∧
      nodes.Perm (chebyshevNodesRaw 2) ∧
      nodes = ((List.range 2).map
        (fun (k0 : ℕ) => Real.cos ((2 * (k0 : ℝ) + 1) * π / (2 * 2)))).reverse ∧
      weights = ((List.range 2).map (fun k0 => fejerWeight 2 (k0 + 1))).reverse :=
  ⟨⟨by norm_num, by norm_num⟩,
   chebyshev_nodes_sorted_weights_reversed 2 (by norm_num) (by norm_num)⟩

/-- C5: one step of the reference engine's recursion at the depth cap 30
used by `computeReferenceValue`. The recursion accepts the Richardson
value `combined + (combined - whole)/15` exactly when
`|combined - whole| ≤ 15·tol` or the depth has reached 30, and otherwise
returns the sum of the two half-interval recursions with the tolerance
halved and the depth incremented. Totality of `adaptiveSimpsonRecurse`
itself is established by well-founded recursion on `maxDepth - depth`:
the depth strictly increases toward the cap, so the computation
terminates on every input. -/
theorem adaptiveSimpson_step (f : ℝ → ℝ) (a b fa fb fm whole tol : ℝ) (depth : ℕ) :
    (30 ≤ depth ∨ |simpsonCombined f a b fa fb fm - whole| ≤ 15 * tol →
      adaptiveSimpsonRecurse f a b fa fb fm whole tol 30 depth =
        simpsonCombined f a b fa fb fm +
          (simpsonCombined f a b fa fb fm - whole) / 15) ∧
    (depth < 30 → 15 * tol < |simpsonCombined f a b fa fb fm - whole| →
      adaptiveSimpsonRecurse f a b fa fb fm whole tol 30 depth =
        adaptiveSimpsonRecurse f a ((a + b) / 2) fa fm (f ((a + (a + b) / 2) / 2))
            (simpsonLeft f a b fa fm) (tol / 2) 30 (depth + 1) +
          adaptiveSimpsonRecurse f ((a + b) / 2) b fm fb (f (((a + b) / 2 + b) / 2))
            (simpsonRight f a b fb fm) (tol / 2) 30 (depth + 1)) := by
  constructor
  · intro h
    rw [adaptiveSimpsonRecurse]
    simp only [simpsonCombined, simpsonLeft, simpsonRight] at h ⊢
    rw [if_pos h]
  · intro hd ht
    rw [adaptiveSimpsonRecurse]
    simp only [simpsonCombined, simpsonLeft, simpsonRight] at ht ⊢
    rw [if_neg (by push_neg; exact ⟨by omega, ht⟩)]

/-- Witness for C5: the zero function on `[0, 1]` with `whole = 0`,
`tol = 1`, `depth = 0` satisfies the acceptance condition and evaluates to
the Richardson value. -/
theorem adaptiveSimpson_step_witness :
    (30 ≤ 0 ∨ |simpsonCombined (fun _ => (0 : ℝ)) 0 1 0 0 0 - 0| ≤ 15 * 1) ∧
    adaptiveSimpsonRecurse (fun _ => (0 : ℝ)) 0 1 0 0 0 0 1 30 0 =
      simpsonCombined (fun _ => (0 : ℝ)) 0 1 0 0 0 +
        (simpsonCombined (fun _ => (0 : ℝ)) 0 1 0 0 0 - 0) / 15 := by
  have hcond : (30 ≤ 0 ∨ |simpsonCombined (fun _ => (0 : ℝ)) 0 1 0 0 0 - 0| ≤ 15 * 1) := by
    right
    norm_num [simpsonCombined, simpsonLeft, simpsonRight]
  exact ⟨hcond, (adaptiveSimpson_step (fun _ => (0 : ℝ)) 0 1 0 0 0 0 1 0).1 hcond⟩

/-- C6: the validator's checks apply in the stated order over its 201
samples. It reports "undefined on large portion" exactly when the NaN
fraction exceeds 10% (so an infinite sample is never reported that way,
and an excessive NaN fraction wins even when infinities are present), and
when the NaN fraction is admissible it reports the asymptote/singularity
message as soon as any sample is infinite. -/
theorem validator_check_order (f : ℝ → Option JSNum) (a b : ℝ) (hab : a < b) :
    ((validateFunctionOnInterval f a b).message =
        some ValidationMessage.undefinedLargePortion ↔
      (((sampleValues f a b).countP JSNum.isNaNb : ℝ) / 201 > 0.1)) ∧
    (¬ (((sampleValues f a b).countP JSNum.isNaNb : ℝ) / 201 > 0.1) →
      0 < (sampleValues f a b).countP JSNum.isInfb →
      validateFunctionOnInterval f a b =
        { valid := false, message := some ValidationMessage.asymptoteOrSingularity }) := by
  simp only [validateFunctionOnInterval]
  split_ifs with h1 h2
  · refine ⟨by simp [h1], fun hn _ => absurd h1 hn⟩
  · refine ⟨by simp [h1], fun _ _ => rfl⟩
  · rw [not_lt] at h2
    refine ⟨?_, fun _ hinf => absurd hinf (by omega)⟩
    rcases hA : adjacentScan (sampleValues f a b) with _ | msg
    · rcases hB : boundaryScan f (boundaryPoints a b) with _ | msg2
      · simpa [hA, hB] using h1
      · rcases boundaryScan_msg f (boundaryPoints a b) msg2 hB with rfl | rfl <;>
          simpa [hA, hB] using h1
    · rcases adjacentScan_msg (sampleValues f a b) msg hA with rfl | rfl <;>
        simpa [hA] using h1

/-- Witness for C6: the everywhere-NaN function on `[0, 1]` has NaN ratio
1 and is reported as undefined on a large portion. -/
theorem validator_check_order_witness :
    (0 : ℝ) < 1 ∧
    (validateFunctionOnInterval (fun _ => some JSNum.nan) 0 1).message =
      some ValidationMessage.undefinedLargePortion := by
  have hcount : (sampleValues (fun _ => some JSNum.nan) 0 1).countP JSNum.isNaNb = 201 := by
    have hs : sampleValues (fun _ => some JSNum.nan) 0 1 =
        List.replicate 201 JSNum.nan := by
      simp [sampleValues, List.map_const']
    rw [hs, countP_isNaNb_replicate_nan]
  refine ⟨by norm_num, ?_⟩
  apply (validator_check_order (fun _ => some JSNum.nan) 0 1 (by norm_num)).1.mpr
  rw [hcount]
  norm_num

/-- C10 counterexample: the everywhere-throwing function throws at the
boundary point `a = 0` of `[0, 1]`, yet the validator reports the
NaN-fraction message "undefined on large portion", not a
boundary-specific message — the sampling checks run first and already
fail. -/
theorem validator_boundary_message_counterexample :
    (fun _ => (none : Option JSNum)) (0 : ℝ) = none ∧
    (0 : ℝ) ∈ boundaryPoints (0 : ℝ) 1 ∧
    validateFunctionOnInterval (fun _ => none) 0 1 =
      { valid := false, message := some ValidationMessage.undefinedLargePortion } := by
  have hs : sampleValues (fun _ => none) 0 1 = List.replicate 201 JSNum.nan := by
    simp [sampleValues, List.map_const']
  have hcount : (sampleValues (fun _ => none) 0 1).countP JSNum.isNaNb = 201 := by
    rw [hs, countP_isNaNb_replicate_nan]
  refine ⟨rfl, by simp [boundaryPoints], ?_⟩
  simp only [validateFunctionOnInterval]
  rw [hcount]
  rw [if_pos (by norm_num)]

/-- C10 amended: the validator never propagates a thrown exception. A
throw at interior sample `i` is recorded as a NaN sample; a throw at one
of the 4 boundary points always yields `valid = false`; and the reported
message is boundary-specific (cannot-evaluate or non-finite-boundary)
whenever the 201-sample checks (NaN fraction, infinities, adjacent-pair
heuristics) all pass. -/
theorem validator_handles_throws (f : ℝ → Option JSNum) (a b x : ℝ) (i : ℕ)
    (hi : i < 201) (hfi : f (samplePoint a b i) = none)
    (hx : x ∈ boundaryPoints a b) (hfx : f x = none) :
    (sampleValues f a b).getD i (JSNum.fin 0) = JSNum.nan ∧
    (validateFunctionOnInterval f a b).valid = false ∧
    (¬ (((sampleValues f a b).countP JSNum.isNaNb : ℝ) / 201 > 0.1) →
      (sampleValues f a b).countP JSNum.isInfb = 0 →
      adjacentScan (sampleValues f a b) = none →
      ∃ m, validateFunctionOnInterval f a b =
          { valid := false, message := some m } ∧
        (m = ValidationMessage.boundaryThrow ∨
         m = ValidationMessage.boundaryNonFinite)) := by
  rcases boundaryScan_some_of_throw f hfx (boundaryPoints a b) hx with ⟨msgB, hB⟩
  refine ⟨?_, ?_, ?_⟩
  · unfold sampleValues
    rw [List.getD_eq_getElem?_getD, List.getElem?_map, List.getElem?_range hi]
    simp [hfi]
  · simp only [validateFunctionOnInterval]
    split_ifs with h1 h2
    · rfl
    · rfl
    · rcases hA : adjacentScan (sampleValues f a b) with _ | msg
      · rw [hB]
      · rfl
  · intro h1 h2 hA
    refine ⟨msgB, ?_, boundaryScan_msg f (boundaryPoints a b) msgB hB⟩
    simp only [validateFunctionOnInterval]
    rw [if_neg h1, if_neg (by omega), hA, hB]

/-- Witness for the amended C10: `throwBelowOne` on `[0, 200]` throws at
interior sample 0 and at the boundary point `a = 0`, passes the sampling
checks (one NaN out of 201, no infinities, no adjacent-pair hit), and is
rejected with the boundary-specific cannot-evaluate message. -/
theorem validator_handles_throws_witness :
    (0 < 201 ∧ throwBelowOne (samplePoint 0 200 0) = none ∧
      (0 : ℝ) ∈ boundaryPoints 0 200 ∧ throwBelowOne 0 = none) ∧
    ((sampleValues throwBelowOne 0 200).getD 0 (JSNum.fin 0) = JSNum.nan ∧
     (validateFunctionOnInterval throwBelowOne 0 200).valid = false ∧
     ∃ m, validateFunctionOnInterval throwBelowOne 0 200 =
         { valid := false, message := some m } ∧
       (m = ValidationMessage.boundaryThrow ∨
        m = ValidationMessage.boundaryNonFinite)) := by
  have hs := sampleValues_throwBelowOne
  have hf0 : throwBelowOne 0 = none := by
    unfold throwBelowOne
    norm_num
  have hfi : throwBelowOne (samplePoint 0 200 0) = none := by
    have : samplePoint 0 200 0 = 0 := by
      unfold samplePoint
      norm_num
    rw [this]
    exact hf0
  have hx : (0 : ℝ) ∈ boundaryPoints 0 200 := by simp [boundaryPoints]
  have hcnt1 : (sampleValues throwBelowOne 0 200).countP JSNum.isNaNb = 1 := by
    rw [hs, List.countP_cons, countP_replicate_false _ _ rfl]
    simp [JSNum.isNaNb]
  have hcnt2 : (sampleValues throwBelowOne 0 200).countP JSNum.isInfb = 0 := by
    rw [hs, List.countP_cons, countP_replicate_false _ _ rfl]
    simp [JSNum.isInfb]
  have h1 : ¬ (((sampleValues throwBelowOne 0 200).countP JSNum.isNaNb : ℝ) / 201 > 0.1) := by
    rw [hcnt1]
    norm_num
  have hA : adjacentScan (sampleValues throwBelowOne 0 200) = none := by
    rw [hs, show (200 : ℕ) = 199 + 1 from rfl, List.replicate_succ]
    simp only [adjacentScan]
    rw [← List.replicate_succ]
    exact adjacentScan_replicate_fin0 200
  have main := validator_handles_throws throwBelowOne 0 200 0 0 (by norm_num) hfi hx hf0
  exact ⟨⟨by norm_num, hfi, hx, hf0⟩, main.1, main.2.1, main.2.2 h1 hcnt2 hA⟩

/-- C9: on `gaussLegendre`, the unified registry evaluator and the
standalone evaluator of `gaussLegendre.js` return identical results — the
same `Except` value, hence the same integral and the same detail rows
field by field — and the shared result is a success. -/
theorem registry_gauss_agree (f : ℝ → ℝ) (a b : ℝ) (n : ℕ)
    (h1 : 1 ≤ n) (h2 : n ≤ 10) :
    computeQuadrature "gaussLegendre" f a b n none = gaussComputeQuadrature f a b n ∧
    ∃ r, gaussComputeQuadrature f a b n = Except.ok r := by
  constructor
  · simp [computeQuadrature, QUADRATURE_METHODS, gaussComputeQuadrature,
      registryDetailRow_eq_gaussDetailRow]
  · exact ⟨_, gaussComputeQuadrature_eq_ok (gaussGetNodesAndWeights_ok h1 h2) f a b⟩

/-- Witness for C9 at `n = 3`, `f = id`, `[a, b] = [0, 1]`. -/
theorem registry_gauss_agree_witness :
    (1 ≤ 3 ∧ 3 ≤ 10) ∧
    computeQuadrature "gaussLegendre" (fun x => x) 0 1 3 none =
      gaussComputeQuadrature (fun x => x) 0 1 3 :=
  ⟨⟨by norm_num, by norm_num⟩,
   (registry_gauss_agree (fun x => x) 0 1 3 (by norm_num) (by norm_num)).1⟩

/-- C3 counterexample: a registry evaluation request with `a = 2 ≥ 1 = b`
is *not* rejected: the call succeeds, having generated the `n = 1`
Gauss-Legendre node and evaluated the target function at the mapped node
`3/2` (the detail row records `fValue = 1`), contradicting the claim that
an `InvalidIntervalError` is raised before any generator or evaluator
work begins. -/
theorem computeQuadrature_accepts_reversed_interval :
    (2 : ℝ) ≥ 1 ∧
    computeQuadrature "gaussLegendre" (fun _ => (1 : ℝ)) 2 1 1 none =
      Except.ok { integral := -1,
                  details := [{ index := 1, originalNode := 0,
                                transformedNode := 3 / 2, originalWeight := 2,
                                transformedWeight := -1, fValue := 1,
                                contribution := -1 }] } := by
  refine ⟨by norm_num, ?_⟩
  simp [computeQuadrature, QUADRATURE_METHODS, gaussGetNodesAndWeights, PRECOMPUTED,
    List.range_succ, registryDetailRow, transformNode, transformWeight]
  norm_num

/-- C3 amended: the registry evaluator performs no interval validation at
all — for every method in the registry and every in-range degree, a
request with `a ≥ b` still succeeds, generating nodes and producing `n`
evaluated detail rows; `a < b` is only screened upstream by the UI hook,
which silently skips computation instead of raising an
`InvalidIntervalError`. -/
theorem computeQuadrature_no_interval_check (methodId : String)
    (hm : methodId ∈ METHOD_IDS) (f : ℝ → ℝ) (a b : ℝ) (n : ℕ)
    (options : Option ℤ) (hab : b ≤ a) (h1 : 1 ≤ n) (h2 : n ≤ 10) :
    ∃ r, computeQuadrature methodId f a b n options = Except.ok r ∧
      r.details.length = n := by
  have hes := equallySpacedGetNodesAndWeights_isOk h1 h2
  rcases hes with ⟨nwes, hes⟩
  simp only [METHOD_IDS, List.mem_cons, List.not_mem_nil, or_false] at hm
  rcases hm with rfl | rfl | rfl | rfl
  · exact ⟨_, computeQuadrature_run QUADRATURE_METHODS_gaussLegendre
      (by simpa using gaussGetNodesAndWeights_ok h1 h2) f a b, by simp⟩
  · exact ⟨_, computeQuadrature_run QUADRATURE_METHODS_equallySpaced
      (by simpa using hes) f a b, by simp⟩
  · exact ⟨_, computeQuadrature_run QUADRATURE_METHODS_chebyshev
      (by simpa using chebyshevGetNodesAndWeights_ok h1 h2) f a b, by simp⟩
  · exact ⟨_, computeQuadrature_run QUADRATURE_METHODS_random
      (by simpa using randomGetNodesAndWeights_ok h1 h2 (options.getD 42)) f a b,
      by simp⟩

/-- Witness for the amended C3 at `methodId = "gaussLegendre"`, `a = 1`,
`b = 0`, `n = 1`. -/
theorem computeQuadrature_no_interval_check_witness :
    ("gaussLegendre" ∈ METHOD_IDS ∧ (0 : ℝ) ≤ 1 ∧ 1 ≤ 1 ∧ 1 ≤ 10) ∧
    ∃ r, computeQuadrature "gaussLegendre" (fun _ => (0 : ℝ)) 1 0 1 none =
      Except.ok r ∧ r.details.length = 1 :=
  ⟨⟨by simp [METHOD_IDS], by norm_num, le_refl 1, by norm_num⟩,
   computeQuadrature_no_interval_check "gaussLegendre" (by simp [METHOD_IDS])
     (fun _ => (0 : ℝ)) 1 0 1 none (by norm_num) (le_refl 1) (by norm_num)⟩

/-- C8: the random generator is deterministic in `(n, seed)` — it succeeds
on in-range degrees and any two successful reads with the same `(n, seed)`
return the same node sequence and the same weight sequence. The embedding
threads the Mulberry32 state explicitly, so no other state can influence
the result. -/
theorem random_reproducible (n : ℕ) (seed : ℤ) (h1 : 1 ≤ n) (h2 : n ≤ 10) :
    ∃ nodes weights,
      randomGetNodesAndWeights n seed = Except.ok (nodes, weights) ∧
      ∀ nodes2 weights2,
        randomGetNodesAndWeights n seed = Except.ok (nodes2, weights2) →
          nodes2 = nodes ∧ weights2 = weights := by
  refine ⟨_, _, randomGetNodesAndWeights_ok h1 h2 seed, ?_⟩
  intro nodes2 weights2 h
  rw [randomGetNodesAndWeights_ok h1 h2 seed] at h
  simpa [eq_comm] using h

/-- Witness for C8 at `n = 2`, `seed = 42`. -/
theorem random_reproducible_witness :
    (1 ≤ 2 ∧ 2 ≤ 10) ∧
    ∃ nodes weights,
      randomGetNodesAndWeights 2 42 = Except.ok (nodes, weights) ∧
      ∀ nodes2 weights2,
        randomGetNodesAndWeights 2 42 = Except.ok (nodes2, weights2) →
          nodes2 = nodes ∧ weights2 = weights :=
  ⟨⟨by norm_num, by norm_num⟩, random_reproducible 2 42 (by norm_num) (by norm_num)⟩

end GLViz
